import Mathlib

/-!
Verification of the USB-RLY08 protocol codec (`src/usbrly08.py`).

The codec talks to a byte channel (`self.fd` in the source).  We embed the
channel as an explicit state: a list of input bytes still available to
`read`, plus a trace of the write/read calls the codec has issued.  Each
Python method of the `usbrly` class becomes a Lean function from a channel
state to a result (`Except Err α`) and the updated channel state.  Python
exceptions (`ValueError`, `OSError`, `UnicodeDecodeError`) become the
error constructors of `Err`.
-/

namespace Usbrly08

/-- Errors raised by the codec: `invalidArgument` embeds Python
`ValueError`, `protocolError` embeds the `OSError` raised on a short
read, and `decodeError` embeds the `UnicodeDecodeError` raised by a
strict ASCII decode. -/
inductive Err where
  | invalidArgument
  | protocolError
  | decodeError
deriving DecidableEq, Repr

/-- One call issued on the byte channel: a write of a list of integers
(the Python code passes plain int lists to `fd.write`), or a read that
requested `n` bytes and obtained `result`. -/
inductive Event where
  | write (data : List Int)
  | read (n : Nat) (result : List Nat)
deriving DecidableEq, Repr

/-- The byte-channel state: the bytes a read will serve next (elements of
a Python `bytes` object, hence naturals), and the trace of calls issued
so far. -/
structure Chan where
  input : List Nat
  events : List Event
deriving DecidableEq, Repr

/-- Embeds `fd.write(data)`: records the call on the trace. -/
def Chan.write (c : Chan) (data : List Int) : Chan :=
  { c with events := c.events ++ [Event.write data] }

/-- Embeds `fd.read(n)`: serves up to `n` bytes from the input (fewer if
the input runs out, which is how a serial-port timeout surfaces), consumes
them, and records the call on the trace. -/
def Chan.read (c : Chan) (n : Nat) : List Nat × Chan :=
  (c.input.take n,
   { input := c.input.drop n,
     events := c.events ++ [Event.read n (c.input.take n)] })

/-- Embeds the `usbrly.CMDS` dictionary of command bytes. -/
def CMDS : String → Int
  | "GET_SERIAL" => 56
  | "GET_SW_VERSION" => 90
  | "GET_STATES" => 91
  | "SET_STATES" => 92
  | "ALL_ON" => 100
  | "FIRST_ON" => 101
  | "ALL_OFF" => 110
  | "FIRST_OFF" => 111
  | _ => 0

/-- Embeds `struct.unpack('B', states)[0]` for a one-byte buffer: the
first byte (the callers only apply it after checking the length). -/
def structUnpackB (bs : List Nat) : Nat := bs.headD 0

/-- Embeds `struct.unpack("BB", version)` for a two-byte buffer. -/
def structUnpackBB (bs : List Nat) : Nat × Nat := (bs.getD 0 0, bs.getD 1 0)

/-- Embeds `bytes.decode('ascii')`: succeeds with the corresponding
string when every byte is ASCII (at most 127), and raises
`UnicodeDecodeError` otherwise. -/
def bytesDecodeAscii (bs : List Nat) : Except Err String :=
  if bs.all (fun b => decide (b ≤ 127)) then
    Except.ok (String.mk (bs.map (fun b => Char.ofNat b)))
  else
    Except.error Err.decodeError

/-- Embeds `usbrly.set_state(relay, state)`: validates the relay index,
then writes the single control byte `FIRST_ON + relay` or
`FIRST_OFF + relay`. -/
def set_state (relay : Int) (state : Bool) (c : Chan) : Except Err Unit × Chan :=
  if relay < 0 ∨ relay > 7 then
    (Except.error Err.invalidArgument, c)
  else
    let controlByte := if state then CMDS "FIRST_ON" + relay else CMDS "FIRST_OFF" + relay
    (Except.ok (), c.write [controlByte])

/-- Embeds `usbrly.set_states(states)`: validates the mask, then writes
the two bytes `[SET_STATES, states]`.  (The source's dynamic
`type(states) != int` check is subsumed by the `Int` type of the
argument.) -/
def set_states (states : Int) (c : Chan) : Except Err Unit × Chan :=
  if states < 0 ∨ states > 255 then
    (Except.error Err.invalidArgument, c)
  else
    (Except.ok (), c.write [CMDS "SET_STATES", states])

/-- Embeds `usbrly.get_states()`: writes `[GET_STATES]`, reads 1 byte,
raises `OSError` on a short read, else unpacks the byte. -/
def get_states (c : Chan) : Except Err Nat × Chan :=
  let c1 := c.write [CMDS "GET_STATES"]
  let r := c1.read 1
  let states := r.1
  let c2 := r.2
  if states.length ≠ 1 then
    (Except.error Err.protocolError, c2)
  else
    (Except.ok (structUnpackB states), c2)

/-- Embeds `usbrly.set_all(state)`: writes the single byte `ALL_ON` or
`ALL_OFF`. -/
def set_all (state : Bool) (c : Chan) : Except Err Unit × Chan :=
  let controlByte := if state then CMDS "ALL_ON" else CMDS "ALL_OFF"
  (Except.ok (), c.write [controlByte])

/-- Embeds `usbrly.get_serial()`: writes `[GET_SERIAL]`, reads 8 bytes,
raises `OSError` on a short read, else decodes the bytes as ASCII. -/
def get_serial (c : Chan) : Except Err String × Chan :=
  let c1 := c.write [CMDS "GET_SERIAL"]
  let r := c1.read 8
  let serial := r.1
  let c2 := r.2
  if serial.length ≠ 8 then
    (Except.error Err.protocolError, c2)
  else
    (bytesDecodeAscii serial, c2)

/-- Embeds `usbrly.get_sw_version()`: writes `[GET_SW_VERSION]`, reads 2
bytes, raises `OSError` on a short read, else unpacks the two bytes. -/
def get_sw_version (c : Chan) : Except Err (Nat × Nat) × Chan :=
  let c1 := c.write [CMDS "GET_SW_VERSION"]
  let r := c1.read 2
  let version := r.1
  let c2 := r.2
  if version.length ≠ 2 then
    (Except.error Err.protocolError, c2)
  else
    (Except.ok (structUnpackBB version), c2)

/-- Shape of the channel interaction one codec call may append to the
trace: nothing, one write, or one write followed by one read.  Nothing
ever follows the read, so no operation retries. -/
def wellShapedTail (t : List Event) : Bool :=
  match t with
  | [] => true
  | [Event.write _] => true
  | [Event.write _, Event.read _ _] => true
  | _ => false

/-- C1: for every relay index r in [0,7] and every state, `set_state r state`
succeeds and appends exactly one write of the single byte `101 + r` (on) or
`111 + r` (off) to the channel trace, performing no read and leaving the
channel input untouched. -/
theorem C1_set_state_valid (c : Chan) (r : Int) (st : Bool)
    (h0 : 0 ≤ r) (h7 : r ≤ 7) :
    (set_state r st c).1 = Except.ok () ∧
    (set_state r st c).2.events =
      c.events ++ [Event.write [(if st then 101 else 111) + r]] ∧
    (set_state r st c).2.input = c.input := by
  have hguard : ¬(r < 0 ∨ r > 7) := by omega
  cases st <;>
    simp [set_state, hguard, Chan.write, CMDS]

/-- Witness for C1 at relay 3, state on: the written byte is 104. -/
theorem C1_witness :
    ((0 : Int) ≤ 3 ∧ (3 : Int) ≤ 7) ∧
    ((set_state 3 true ⟨[], []⟩).1 = Except.ok () ∧
     (set_state 3 true ⟨[], []⟩).2.events =
       [] ++ [Event.write [(if true then 101 else 111) + 3]] ∧
     (set_state 3 true ⟨[], []⟩).2.input = []) :=
  ⟨⟨by decide, by decide⟩,
   C1_set_state_valid ⟨[], []⟩ 3 true (by decide) (by decide)⟩

/-- C2: for a relay index outside [0,7], `set_state` fails with
`invalidArgument`, and for a mask outside [0,255], `set_states` fails with
`invalidArgument`; in both cases the channel state is returned unchanged,
so zero bytes are written and no channel interaction happens. -/
theorem C2_invalid_arguments (c : Chan) (r m : Int) (st : Bool)
    (hr : r < 0 ∨ r > 7) (hm : m < 0 ∨ m > 255) :
    set_state r st c = (Except.error Err.invalidArgument, c) ∧
    set_states m c = (Except.error Err.invalidArgument, c) := by
  constructor
  · simp [set_state, hr]
  · simp [set_states, hm]

/-- Witness for C2 at relay 8 and mask 256 on an empty channel. -/
theorem C2_witness :
    (((8 : Int) < 0 ∨ (8 : Int) > 7) ∧ ((256 : Int) < 0 ∨ (256 : Int) > 255)) ∧
    (set_state 8 false ⟨[], []⟩ = (Except.error Err.invalidArgument, ⟨[], []⟩) ∧
     set_states 256 ⟨[], []⟩ = (Except.error Err.invalidArgument, ⟨[], []⟩)) :=
  ⟨⟨by decide, by decide⟩,
   C2_invalid_arguments ⟨[], []⟩ 8 256 false (by decide) (by decide)⟩

/-- C3: for every mask m in [0,255], `set_states m` succeeds and appends
exactly one write of the two-byte sequence `[92, m]` to the channel trace,
performing no read and leaving the channel input untouched. -/
theorem C3_set_states_valid (c : Chan) (m : Int)
    (h0 : 0 ≤ m) (h255 : m ≤ 255) :
    (set_states m c).1 = Except.ok () ∧
    (set_states m c).2.events = c.events ++ [Event.write [92, m]] ∧
    (set_states m c).2.input = c.input := by
  have hguard : ¬(m < 0 ∨ m > 255) := by omega
  simp [set_states, hguard, Chan.write, CMDS]

/-- Witness for C3 at mask 10. -/
theorem C3_witness :
    ((0 : Int) ≤ 10 ∧ (10 : Int) ≤ 255) ∧
    ((set_states 10 ⟨[], []⟩).1 = Except.ok () ∧
     (set_states 10 ⟨[], []⟩).2.events = [] ++ [Event.write [92, 10]] ∧
     (set_states 10 ⟨[], []⟩).2.input = []) :=
  ⟨⟨by decide, by decide⟩,
   C3_set_states_valid ⟨[], []⟩ 10 (by decide) (by decide)⟩

/-- C4: `get_states` appends exactly one write of the single byte `[91]`
followed by one read of 1 byte; it fails with `protocolError` if and only
if the channel has no byte to serve, and when the channel serves a first
byte b it returns b unchanged as the mask. -/
theorem C4_get_states (c : Chan) :
    (get_states c).2.events =
      c.events ++ [Event.write [91], Event.read 1 (c.input.take 1)] ∧
    ((get_states c).1 = Except.error Err.protocolError ↔ c.input = []) ∧
    (∀ b l, c.input = b :: l → (get_states c).1 = Except.ok b) := by
  refine ⟨?_, ?_, ?_⟩
  · simp only [get_states, Chan.write, Chan.read, CMDS]
    split <;> simp
  · cases hin : c.input with
    | nil => simp [get_states, Chan.write, Chan.read, hin]
    | cons b l => simp [get_states, Chan.write, Chan.read, hin, structUnpackB]
  · intro b l hbl
    simp [get_states, Chan.write, Chan.read, hbl, structUnpackB]

/-- Witness for C4: a channel serving byte 0x0A yields mask 10, and an
empty channel yields `protocolError`. -/
theorem C4_witness :
    (get_states ⟨[10], []⟩).1 = Except.ok 10 ∧
    (get_states ⟨[], []⟩).1 = Except.error Err.protocolError :=
  ⟨(C4_get_states ⟨[10], []⟩).2.2 10 [] rfl,
   (C4_get_states ⟨[], []⟩).2.1.mpr rfl⟩

/-- C5: `get_serial` appends exactly one write of the single byte `[56]`
followed by one read of 8 bytes; it fails with `protocolError` when fewer
than 8 bytes are available, fails with `decodeError` when the 8 bytes are
not all ASCII, and otherwise returns the 8 bytes decoded as ASCII text. -/
theorem C5_get_serial (c : Chan) :
    (get_serial c).2.events =
      c.events ++ [Event.write [56], Event.read 8 (c.input.take 8)] ∧
    (c.input.length < 8 → (get_serial c).1 = Except.error Err.protocolError) ∧
    (8 ≤ c.input.length →
      ((c.input.take 8).all (fun b => decide (b ≤ 127)) = true →
        (get_serial c).1 =
          Except.ok (String.mk ((c.input.take 8).map (fun b => Char.ofNat b)))) ∧
      ((c.input.take 8).all (fun b => decide (b ≤ 127)) = false →
        (get_serial c).1 = Except.error Err.decodeError)) := by
  refine ⟨?_, ?_, ?_⟩
  · simp only [get_serial, Chan.write, Chan.read, CMDS]
    split <;> simp
  · intro hshort
    simp [get_serial, Chan.write, Chan.read, hshort]
  · intro hlong
    have hnotshort : ¬c.input.length < 8 := by omega
    constructor
    · intro hascii
      simp [get_serial, Chan.write, Chan.read, hnotshort, bytesDecodeAscii, hascii]
    · intro hnon
      simp [get_serial, Chan.write, Chan.read, hnotshort, bytesDecodeAscii, hnon]

/-- Witness for C5: the bytes of "ABCD1234" decode to the string
"ABCD1234", and a channel with only 5 bytes yields `protocolError`. -/
theorem C5_witness :
    (8 ≤ ([65, 66, 67, 68, 49, 50, 51, 52] : List Nat).length ∧
     (get_serial ⟨[65, 66, 67, 68, 49, 50, 51, 52], []⟩).1 =
       Except.ok "ABCD1234") ∧
    (([1, 2, 3, 4, 5] : List Nat).length < 8 ∧
     (get_serial ⟨[1, 2, 3, 4, 5], []⟩).1 = Except.error Err.protocolError) := by
  refine ⟨⟨by decide, ?_⟩, ⟨by decide, ?_⟩⟩
  · have h := ((C5_get_serial ⟨[65, 66, 67, 68, 49, 50, 51, 52], []⟩).2.2
      (by decide)).1 (by decide)
    rw [h]
    rfl
  · exact (C5_get_serial ⟨[1, 2, 3, 4, 5], []⟩).2.1 (by decide)

/-- C6: `get_sw_version` appends exactly one write of the single byte
`[90]` followed by one read of 2 bytes; it fails with `protocolError` when
fewer than 2 bytes are available, and otherwise returns the pair
(byte0, byte1) unchanged. -/
theorem C6_get_sw_version (c : Chan) :
    (get_sw_version c).2.events =
      c.events ++ [Event.write [90], Event.read 2 (c.input.take 2)] ∧
    (c.input.length < 2 → (get_sw_version c).1 = Except.error Err.protocolError) ∧
    (∀ b0 b1 l, c.input = b0 :: b1 :: l →
      (get_sw_version c).1 = Except.ok (b0, b1)) := by
  refine ⟨?_, ?_, ?_⟩
  · simp only [get_sw_version, Chan.write, Chan.read, CMDS]
    split <;> simp
  · intro hshort
    simp [get_sw_version, Chan.write, Chan.read, hshort]
  · intro b0 b1 l hin
    simp [get_sw_version, Chan.write, Chan.read, hin, structUnpackBB]

/-- Witness for C6: a channel serving [5, 2] yields the pair (5, 2). -/
theorem C6_witness :
    (⟨[5, 2], []⟩ : Chan).input = 5 :: 2 :: [] ∧
    (get_sw_version ⟨[5, 2], []⟩).1 = Except.ok (5, 2) :=
  ⟨rfl, (C6_get_sw_version ⟨[5, 2], []⟩).2.2 5 2 [] rfl⟩

/-- C7: `set_all true` appends exactly one write of the single byte
`[100]` and `set_all false` one write of `[110]`; both succeed and leave
the channel input untouched, so no read happens. -/
theorem C7_set_all (c : Chan) (st : Bool) :
    (set_all st c).1 = Except.ok () ∧
    (set_all st c).2.events =
      c.events ++ [Event.write [if st then 100 else 110]] ∧
    (set_all st c).2.input = c.input := by
  cases st <;> simp [set_all, Chan.write, CMDS]

/-- C8: round-trip — for every relay index r in [0,7] and either base
(`FIRST_ON` = 101 when on, `FIRST_OFF` = 111 when off), the opcode that
`set_state` actually writes, minus that base, recovers exactly r. -/
theorem C8_round_trip (c : Chan) (r : Int) (st : Bool)
    (h0 : 0 ≤ r) (h7 : r ≤ 7) :
    ∃ op : Int,
      (set_state r st c).2.events = c.events ++ [Event.write [op]] ∧
      op - (if st then CMDS "FIRST_ON" else CMDS "FIRST_OFF") = r := by
  refine ⟨(if st then CMDS "FIRST_ON" else CMDS "FIRST_OFF") + r, ?_, by ring⟩
  have hguard : ¬(r < 0 ∨ r > 7) := by omega
  cases st <;> simp [set_state, hguard, Chan.write, CMDS]

/-- Witness for C8 at relay 5, state off: opcode 116, and 116 − 111 = 5. -/
theorem C8_witness :
    ((0 : Int) ≤ 5 ∧ (5 : Int) ≤ 7) ∧
    (∃ op : Int,
      (set_state 5 false ⟨[], []⟩).2.events = [] ++ [Event.write [op]] ∧
      op - (if false then CMDS "FIRST_ON" else CMDS "FIRST_OFF") = 5) :=
  ⟨⟨by decide, by decide⟩,
   C8_round_trip ⟨[], []⟩ 5 false (by decide) (by decide)⟩

/-- C9: every codec operation appends to the channel trace a segment of
the shape "at most one write followed by at most one read" and nothing
after the read, so no operation ever retries and a short read fails the
call with no further channel interaction.  The codec itself carries no
state of its own in the embedding beyond the channel it is given: each
operation is a pure function of the channel state. -/
theorem C9_single_exchange (c : Chan) (r m : Int) (st : Bool) :
    (∃ t, (set_state r st c).2.events = c.events ++ t ∧ wellShapedTail t = true) ∧
    (∃ t, (set_states m c).2.events = c.events ++ t ∧ wellShapedTail t = true) ∧
    (∃ t, (get_states c).2.events = c.events ++ t ∧ wellShapedTail t = true) ∧
    (∃ t, (set_all st c).2.events = c.events ++ t ∧ wellShapedTail t = true) ∧
    (∃ t, (get_serial c).2.events = c.events ++ t ∧ wellShapedTail t = true) ∧
    (∃ t, (get_sw_version c).2.events = c.events ++ t ∧ wellShapedTail t = true) := by
  refine ⟨?_, ?_, ?_, ?_, ?_, ?_⟩
  · by_cases hg : r < 0 ∨ r > 7
    · exact ⟨[], by simp [set_state, hg], rfl⟩
    · refine ⟨[Event.write [if st then CMDS "FIRST_ON" + r else CMDS "FIRST_OFF" + r]],
        ?_, rfl⟩
      cases st <;> simp [set_state, hg, Chan.write]
  · by_cases hg : m < 0 ∨ m > 255
    · exact ⟨[], by simp [set_states, hg], rfl⟩
    · exact ⟨[Event.write [CMDS "SET_STATES", m]],
        by simp [set_states, hg, Chan.write], rfl⟩
  · refine ⟨[Event.write [CMDS "GET_STATES"], Event.read 1 (c.input.take 1)], ?_, rfl⟩
    simp only [get_states, Chan.write, Chan.read]
    split <;> simp
  · refine ⟨[Event.write [if st then CMDS "ALL_ON" else CMDS "ALL_OFF"]], ?_, rfl⟩
    cases st <;> simp [set_all, Chan.write]
  · refine ⟨[Event.write [CMDS "GET_SERIAL"], Event.read 8 (c.input.take 8)], ?_, rfl⟩
    simp only [get_serial, Chan.write, Chan.read]
    split <;> simp
  · refine ⟨[Event.write [CMDS "GET_SW_VERSION"], Event.read 2 (c.input.take 2)], ?_, rfl⟩
    simp only [get_sw_version, Chan.write, Chan.read]
    split <;> simp

/-- C10: whenever `get_states` succeeds its result is at most 255, and
whenever `get_sw_version` succeeds both components of the pair are at most
255, for every channel input made of bytes (values at most 255); the
results are naturals, so they are at least 0. -/
theorem C10_byte_ranges (c : Chan) (h : ∀ b ∈ c.input, b ≤ 255) :
    (∀ v, (get_states c).1 = Except.ok v → v ≤ 255) ∧
    (∀ p : Nat × Nat, (get_sw_version c).1 = Except.ok p →
      p.1 ≤ 255 ∧ p.2 ≤ 255) := by
  constructor
  · intro v hv
    cases hin : c.input with
    | nil => simp [get_states, Chan.write, Chan.read, hin] at hv
    | cons b l =>
        have hb : b ≤ 255 := h b (by simp [hin])
        simp [get_states, Chan.write, Chan.read, hin, structUnpackB] at hv
        omega
  · intro p hp
    obtain ⟨p1, p2⟩ := p
    match hin : c.input with
    | [] => simp [get_sw_version, Chan.write, Chan.read, hin] at hp
    | [b0] => simp [get_sw_version, Chan.write, Chan.read, hin] at hp
    | b0 :: b1 :: l =>
        have hb0 : b0 ≤ 255 := h b0 (by simp [hin])
        have hb1 : b1 ≤ 255 := h b1 (by simp [hin])
        simp [get_sw_version, Chan.write, Chan.read, hin, structUnpackBB] at hp
        obtain ⟨e1, e2⟩ := hp
        constructor <;> omega

/-- Witness for C10 on the byte input [10, 7, 3]. -/
theorem C10_witness :
    (∀ b ∈ ([10, 7, 3] : List Nat), b ≤ 255) ∧
    ((∀ v, (get_states ⟨[10, 7, 3], []⟩).1 = Except.ok v → v ≤ 255) ∧
     (∀ p : Nat × Nat, (get_sw_version ⟨[10, 7, 3], []⟩).1 = Except.ok p →
       p.1 ≤ 255 ∧ p.2 ≤ 255)) :=
  ⟨by decide, C10_byte_ranges ⟨[10, 7, 3], []⟩ (by decide)⟩

end Usbrly08
